import Mathlib

/-!
Verification of the threatInspect ingestion-translation-persistence pipeline.

This file is a shallow embedding of the two Python scripts
src/telegram_scrapper.py and src/scrapper.py.  External collaborators
(the Telegram client, the language-detection and translation backends, the
PostgreSQL store) are modelled as explicit parameters: fallible calls are
functions into Except, the store is a list of rows, and SQL statements are
pure functions on that list.  Logging (print calls) has no observable
effect on the data flow and is not modelled.
-/

/-- A scraped message as built in memory by the fetcher
(the dict literal of fetch_messages_from_channel). -/
structure Record where
  security_area : String
  region : String
  city_town_area : String
  event_date : String
  event_time : String
  source_message_original : String
  source_message_translated : String
  target_group : String
  perpetrator_group : String
  threat_type : String
  incident_type : String
  no_of_explosives : String
  analysis_comments : String
  total_casualties : Int
  deaths : Int
  injuries : Int
  source_channel : String
deriving DecidableEq, Repr

/-- A row of the scraped_messages table: the Record columns plus the
store-assigned surrogate id.  source_message_translated is nullable in SQL,
hence Option. -/
structure Row where
  id : Nat
  security_area : String
  region : String
  city_town_area : String
  event_date : String
  event_time : String
  source_message_original : String
  source_message_translated : Option String
  target_group : String
  perpetrator_group : String
  threat_type : String
  incident_type : String
  no_of_explosives : String
  analysis_comments : String
  total_casualties : Int
  deaths : Int
  injuries : Int
  source_channel : String
deriving DecidableEq, Repr

/-- The dedup tuple of a Record:
(source_channel, event_date, event_time, source_message_original),
the conflict target of the INSERT statement. -/
def Record.dedupKey (m : Record) : String × String × String × String :=
  (m.source_channel, m.event_date, m.event_time, m.source_message_original)

/-- The dedup tuple of a stored row. -/
def Row.dedupKey (r : Row) : String × String × String × String :=
  (r.source_channel, r.event_date, r.event_time, r.source_message_original)

/-- The row stored for a Record by the INSERT statement of insert_messages,
with the store-assigned surrogate id. -/
def rowOfRecord (id : Nat) (m : Record) : Row :=
  { id := id
    security_area := m.security_area
    region := m.region
    city_town_area := m.city_town_area
    event_date := m.event_date
    event_time := m.event_time
    source_message_original := m.source_message_original
    source_message_translated := some m.source_message_translated
    target_group := m.target_group
    perpetrator_group := m.perpetrator_group
    threat_type := m.threat_type
    incident_type := m.incident_type
    no_of_explosives := m.no_of_explosives
    analysis_comments := m.analysis_comments
    total_casualties := m.total_casualties
    deaths := m.deaths
    injuries := m.injuries
    source_channel := m.source_channel }

/-!
## Translation adapter

telegram_scrapper.py uses langdetect.detect and googletrans; scrapper.py
uses the translate library.  Both backends are modelled as oracles:
  detect : text to Except error language
  tr     : text, source language, destination language to
           Except error translated-text (the .text field of the
           googletrans result object is folded into the oracle)
  backend : destination language, text to Except error translated-text
The try/except blocks of the Python code become matches on the oracle
results.
-/

/-- detect_and_translate of telegram_scrapper.py (lines 94-107):
empty text returns empty; otherwise detect the language, translate to
English when the detected language is not English, and on any raised
error fall back to the original text. -/
def detect_and_translate (d : String → Except String String)
    (t : String → String → String → Except String String)
    (text : String) : String :=
  if text = "" then ""
  else
    match d text with
    | .error _ => text
    | .ok lang =>
      if lang ≠ "en" then
        match t text lang "en" with
        | .error _ => text
        | .ok translated => translated
      else text

/-- Python str.strip(): remove leading and trailing whitespace.
Written on the character list so that it evaluates by kernel reduction
(String.trim is defined by well-founded recursion and does not). -/
def pyStrip (s : String) : String :=
  ⟨((s.data.dropWhile Char.isWhitespace).reverse.dropWhile Char.isWhitespace).reverse⟩

/-- translate_text of scrapper.py (lines 99-114): empty text returns
empty; otherwise call the backend for the destination language and
return the stripped result, falling back to the original text on a
raised error.  The Python default argument to_language="en" becomes a
Lean default argument. -/
def translate_text (backend : String → String → Except String String)
    (text : String) (to_language : String := "en") : String :=
  if text = "" then ""
  else
    match backend to_language text with
    | .error _ => text
    | .ok translation => pyStrip translation

/-!
## Channel fetcher

The Telegram client is external: it resolves a channel identifier to an
entity (fallibly) and yields a bounded list of raw messages for an
entity and a limit.  A raw message carries possibly-absent text and a
date object, modelled by its strftime formatting function.
-/

/-- The date attribute of a raw Telegram message, modelled by its
strftime method: format string to formatted output. -/
structure MessageDate where
  strftime : String → String

/-- A raw message yielded by client.iter_messages: possibly-absent text
plus its date. -/
structure RawMessage where
  message : Option String
  date : MessageDate

/-- Python truthiness of message.message (None and the empty string are
falsy). -/
def msgTruthy : Option String → Bool
  | none => false
  | some s => s != ""

/-- The Record dict built by the fetch loop for one raw message
(identical literal in both source files). -/
def recordOfRaw (channel_identifier : String) (message : RawMessage) : Record :=
  { security_area := "Unknown"
    region := "Unknown"
    city_town_area := "Unknown"
    event_date := message.date.strftime "%Y-%m-%d"
    event_time := message.date.strftime "%H:%M:%S"
    source_message_original := message.message.getD ""
    source_message_translated := ""
    target_group := ""
    perpetrator_group := ""
    threat_type := "Unknown"
    incident_type := ""
    no_of_explosives := ""
    analysis_comments := ""
    total_casualties := 0
    deaths := 0
    injuries := 0
    source_channel := channel_identifier }

/-- The external Telegram client. -/
structure Client (Entity : Type) where
  get_entity : String → Except String Entity
  iter_messages : Entity → Nat → List RawMessage

/-- fetch_messages_from_channel of telegram_scrapper.py (lines
109-141): resolve the channel (returning the empty list on failure),
then keep, in order, a Record for every raw message with truthy text. -/
def fetch_messages_from_channel {Entity : Type} (client : Client Entity)
    (channel_identifier : String) (limit : Nat := 100) : List Record :=
  match client.get_entity channel_identifier with
  | .error _ => []
  | .ok entity =>
    (client.iter_messages entity limit).foldl
      (fun messages message =>
        if msgTruthy message.message then
          messages ++ [recordOfRaw channel_identifier message]
        else messages) []

/-- fetch_all_messages of telegram_scrapper.py (lines 143-156): iterate
the configured channels in order, fetching each with limit 100, and
extend one accumulated list. -/
def fetch_all_messages {Entity : Type} (client : Client Entity)
    (channels : List String) : List Record :=
  channels.foldl
    (fun all_messages channel =>
      all_messages ++ fetch_messages_from_channel client channel 100) []

/-- A JSON scalar as read from config.json. -/
inductive PyVal where
  | bool (b : Bool)
  | int (n : Int)
  | str (s : String)
deriving DecidableEq, Repr

/-- Python equality with the integer 1 (in Python, True == 1 holds and
a string never equals 1). -/
def pyEqOne : PyVal → Bool
  | .bool b => b
  | .int n => n == 1
  | .str _ => false

/-- Python truthiness of a config value. -/
def pyTruthy : PyVal → Bool
  | .bool b => b
  | .int n => n != 0
  | .str s => s != ""

/-- fetch_messages_from_channel of scrapper.py (lines 119-158): the
message limit is computed inside the function from the optional devmode
config key, 1 when config.get("devmode", 0) == 1 and 100 otherwise. -/
def fetch_messages_from_channel_s {Entity : Type} (devmode : Option PyVal)
    (client : Client Entity) (channel_identifier : String) : List Record :=
  let message_limit := if pyEqOne (devmode.getD (.int 0)) then 1 else 100
  match client.get_entity channel_identifier with
  | .error _ => []
  | .ok entity =>
    (client.iter_messages entity message_limit).foldl
      (fun messages message =>
        if msgTruthy message.message then
          messages ++ [recordOfRaw channel_identifier message]
        else messages) []

/-- fetch_all_messages of scrapper.py (lines 159-172): as in the
telegram variant but with the limit left to the per-channel fetch. -/
def fetch_all_messages_s {Entity : Type} (devmode : Option PyVal)
    (client : Client Entity) (channels : List String) : List Record :=
  channels.foldl
    (fun all_messages channel =>
      all_messages ++ fetch_messages_from_channel_s devmode client channel) []

/-!
Concrete data used by witnesses: a sample date, sample raw messages,
a client whose channel "bad" fails to resolve, and a client whose
message list depends on the requested limit.
-/

/-- A concrete message date. -/
def sampleDate : MessageDate :=
  ⟨fun fmt => if fmt = "%Y-%m-%d" then "2024-05-01" else "08:30:00"⟩

/-- A raw message with non-empty text. -/
def rawHello : RawMessage := ⟨some "hola mundo", sampleDate⟩

/-- A second raw message with different non-empty text. -/
def rawSecond : RawMessage := ⟨some "ciao", sampleDate⟩

/-- A raw message with empty text. -/
def rawEmpty : RawMessage := ⟨some "", sampleDate⟩

/-- A raw message with absent text. -/
def rawNone : RawMessage := ⟨none, sampleDate⟩

/-- A client failing to resolve channel "bad" and yielding three raw
messages (one good, one empty, one absent) elsewhere. -/
def clientW : Client Nat :=
  ⟨fun c => if c = "bad" then .error "no entity" else .ok 0,
   fun _ _ => [rawHello, rawEmpty, rawNone]⟩

/-- A client whose yielded messages depend on the requested limit: one
message when the limit is 1, two messages otherwise. -/
def clientLim : Client Nat :=
  ⟨fun _ => .ok 0,
   fun _ limit => if limit = 1 then [rawHello] else [rawHello, rawSecond]⟩

/-!
## Persistence layer

The scraped_messages table is modelled as a list of rows in insertion
order.  The INSERT ... ON CONFLICT (source_channel, event_date,
event_time, source_message_original) DO NOTHING statement processes its
value tuples in order; the UPDATE by id is a map over the rows.
-/

/-- The store already holds a row with this dedup tuple (the ON
CONFLICT target). -/
def hasKey (store : List Row) (k : String × String × String × String) : Prop :=
  ∃ r ∈ store, r.dedupKey = k

instance (store : List Row) (k : String × String × String × String) :
    Decidable (hasKey store k) :=
  List.decidableBEx _ store

/-- One value tuple of the multi-row INSERT with the conflict-ignore
policy: a row whose dedup tuple is already present is silently skipped,
otherwise the row is appended with the next surrogate id. -/
def insertOne (store : List Row) (msg : Record) : List Row :=
  if hasKey store msg.dedupKey then store
  else store ++ [rowOfRecord store.length msg]

/-- insert_messages of telegram_scrapper.py (lines 40-75), identical in
scrapper.py (lines 54-91): the batch INSERT processes the value tuples
of the message list in order under the conflict-ignore policy. -/
def insert_messages (store : List Row) (messages : List Record) : List Row :=
  messages.foldl insertOne store

/-- update_translation_in_db of telegram_scrapper.py (lines 77-87):
UPDATE scraped_messages SET source_message_translated = text WHERE
id = message_id. -/
def update_translation_in_db (store : List Row) (message_id : Nat)
    (translated_text : String) : List Row :=
  store.map (fun r =>
    if r.id = message_id then
      { r with source_message_translated := some translated_text }
    else r)

/-- The backfill selection criterion of main:
source_message_translated IS NULL OR source_message_translated = ''. -/
def rowUntranslated (r : Row) : Prop :=
  r.source_message_translated = none ∨ r.source_message_translated = some ""

instance (r : Row) : Decidable (rowUntranslated r) :=
  inferInstanceAs (Decidable (r.source_message_translated = none ∨
    r.source_message_translated = some ""))

/-- The backfill pass of main in telegram_scrapper.py (lines 179-188):
select the rows satisfying the criterion, then for each selected row
translate its original text and update that row by its id. -/
def backfill_pass (d : String → Except String String)
    (t : String → String → String → Except String String)
    (store : List Row) : List Row :=
  let untranslated_messages := store.filter (fun r => decide (rowUntranslated r))
  untranslated_messages.foldl
    (fun s msg =>
      update_translation_in_db s msg.id
        (detect_and_translate d t msg.source_message_original))
    store

/-- The translate step of main in telegram_scrapper.py (lines 171-174):
assign source_message_translated for every record where it is still
empty. -/
def translate_step (d : String → Except String String)
    (t : String → String → String → Except String String)
    (messages : List Record) : List Record :=
  messages.map (fun msg =>
    if msg.source_message_translated = "" then
      { msg with source_message_translated :=
          detect_and_translate d t msg.source_message_original }
    else msg)

/-- A concrete sample Record with given original and translated text,
used by witnesses. -/
def sampleRecord (orig tr : String) : Record :=
  { security_area := "Unknown"
    region := "Unknown"
    city_town_area := "Unknown"
    event_date := "2024-05-01"
    event_time := "08:30:00"
    source_message_original := orig
    source_message_translated := tr
    target_group := ""
    perpetrator_group := ""
    threat_type := "Unknown"
    incident_type := ""
    no_of_explosives := ""
    analysis_comments := ""
    total_casualties := 0
    deaths := 0
    injuries := 0
    source_channel := "c" }

/-- A concrete sample stored row, used by witnesses. -/
def sampleRow (id : Nat) (orig : String) (tr : Option String) : Row :=
  { id := id
    security_area := "Unknown"
    region := "Unknown"
    city_town_area := "Unknown"
    event_date := "2024-05-01"
    event_time := "08:30:00"
    source_message_original := orig
    source_message_translated := tr
    target_group := ""
    perpetrator_group := ""
    threat_type := "Unknown"
    incident_type := ""
    no_of_explosives := ""
    analysis_comments := ""
    total_casualties := 0
    deaths := 0
    injuries := 0
    source_channel := "c" }

theorem detect_and_translate_empty (d : String → Except String String)
    (t : String → String → String → Except String String) :
    detect_and_translate d t "" = "" := rfl

/-- Helper: when the input is non-empty and every successful backend
translation is non-empty, detect_and_translate returns a non-empty
string (all fallback branches return the original text). -/
theorem detect_and_translate_ne_empty (d : String → Except String String)
    (t : String → String → String → Except String String)
    (text : String) (htext : text ≠ "")
    (htr : ∀ s lang dst out, t s lang dst = .ok out → out ≠ "") :
    detect_and_translate d t text ≠ "" := by
  unfold detect_and_translate
  rw [if_neg htext]
  cases hd : d text with
  | error e => exact htext
  | ok lang =>
    simp only []
    by_cases hlang : lang ≠ "en"
    · rw [if_pos hlang]
      cases ht : t text lang "en" with
      | error e => exact htext
      | ok out => exact htr text lang "en" out ht
    · rw [if_neg hlang]
      exact htext

/-- C10: detect_and_translate is total at its interface.  Every call
returns a string, and the returned value is exhaustively one of: the
empty string, the original text (the early return, the language = en
no-op, or the fallback of a caught detection or translation error), or
a successfully produced backend translation.  No error case escapes. -/
theorem detect_and_translate_total (d : String → Except String String)
    (t : String → String → String → Except String String) (text : String) :
    detect_and_translate d t text = "" ∨ detect_and_translate d t text = text ∨
      ∃ lang out, d text = .ok lang ∧ lang ≠ "en" ∧ t text lang "en" = .ok out ∧
        detect_and_translate d t text = out := by
  unfold detect_and_translate
  by_cases htext : text = ""
  · rw [if_pos htext]
    exact Or.inl rfl
  · rw [if_neg htext]
    cases hd : d text with
    | error e => exact Or.inr (Or.inl rfl)
    | ok lang =>
      simp only []
      by_cases hlang : lang ≠ "en"
      · rw [if_pos hlang]
        cases ht : t text lang "en" with
        | error e => exact Or.inr (Or.inl rfl)
        | ok out => exact Or.inr (Or.inr ⟨lang, out, rfl, hlang, ht, rfl⟩)
      · rw [if_neg hlang]
        exact Or.inr (Or.inl rfl)

/-- C2: translation failure fallback.  If language detection raises, or
detection succeeds with a non-English language and the translation
backend raises, detect_and_translate returns the original input text;
likewise translate_text of scrapper.py returns the original text when
its backend raises.  The error never propagates: the adapters always
return a value. -/
theorem translation_failure_fallback :
    (∀ (d : String → Except String String)
       (t : String → String → String → Except String String) (text e : String),
       d text = .error e → detect_and_translate d t text = text) ∧
    (∀ (d : String → Except String String)
       (t : String → String → String → Except String String) (text lang e : String),
       d text = .ok lang → lang ≠ "en" → t text lang "en" = .error e →
       detect_and_translate d t text = text) ∧
    (∀ (backend : String → String → Except String String) (text dst e : String),
       backend dst text = .error e → translate_text backend text dst = text) := by
  refine ⟨?_, ?_, ?_⟩
  · intro d t text e hd
    by_cases htext : text = ""
    · subst htext
      rfl
    · unfold detect_and_translate
      rw [if_neg htext, hd]
  · intro d t text lang e hd hlang ht
    by_cases htext : text = ""
    · subst htext
      rfl
    · unfold detect_and_translate
      rw [if_neg htext, hd]
      simp only []
      rw [if_pos hlang, ht]
  · intro backend text dst e hb
    by_cases htext : text = ""
    · subst htext
      rfl
    · unfold translate_text
      rw [if_neg htext, hb]

/-- Witness for C2 at concrete oracles and input. -/
theorem translation_failure_fallback_witness :
    detect_and_translate (fun _ => .error "boom") (fun _ _ _ => .ok "x") "hola" = "hola" ∧
    detect_and_translate (fun _ => .ok "es") (fun _ _ _ => .error "boom") "hola" = "hola" ∧
    translate_text (fun _ _ => .error "boom") "hola" "en" = "hola" :=
  ⟨translation_failure_fallback.1 _ _ "hola" "boom" rfl,
   translation_failure_fallback.2.1 _ _ "hola" "es" "boom" rfl (by decide) rfl,
   translation_failure_fallback.2.2 _ "hola" "en" "boom" rfl⟩

/-- C5: translation no-op cases.  On the empty string the adapter
returns the empty string for every pair of oracles (so neither
detection nor the backend is consulted), and when detection reports
English the input is returned unchanged and the result does not depend
on the translation backend (the backend is not called). -/
theorem translation_noop :
    (∀ (d : String → Except String String)
       (t : String → String → String → Except String String),
       detect_and_translate d t "" = "") ∧
    (∀ (d : String → Except String String)
       (t t2 : String → String → String → Except String String) (text : String),
       d text = .ok "en" →
       detect_and_translate d t text = text ∧
       detect_and_translate d t text = detect_and_translate d t2 text) := by
  constructor
  · intro d t
    rfl
  · intro d t t2 text hd
    by_cases htext : text = ""
    · subst htext
      exact ⟨rfl, rfl⟩
    · have hen : ¬(("en" : String) ≠ "en") := fun h => h rfl
      constructor
      · unfold detect_and_translate
        rw [if_neg htext, hd]
        simp only []
        rw [if_neg hen]
      · unfold detect_and_translate
        rw [if_neg htext, if_neg htext, hd]
        simp only []
        rw [if_neg hen, if_neg hen]

/-- C7 counterexample: the claim says the adapter returns the trimmed
backend result whenever the backend is called.  In detect_and_translate
(text non-empty, detection reporting a non-English language) the
backend result is returned as-is: with a backend producing the string
space-h-i-space, the adapter returns it untrimmed, and that value
differs from its stripped form. -/
theorem trimmed_result_counterexample :
    detect_and_translate (fun _ => Except.ok "fr")
        (fun _ _ _ => Except.ok " hi ") "bonjour" = " hi " ∧
    pyStrip " hi " = "hi" ∧ (" hi " : String) ≠ "hi" :=
  ⟨by decide, by decide, by decide⟩

/-- C7 amended: when the backend is actually called, the
detect-and-translate adapter of telegram_scrapper.py returns the
backend result unchanged (no trimming), while the translate_text
adapter of scrapper.py returns the backend result stripped of leading
and trailing whitespace. -/
theorem trimmed_result_amended :
    (∀ (d : String → Except String String)
       (t : String → String → String → Except String String)
       (text lang out : String), text ≠ "" →
       d text = .ok lang → lang ≠ "en" → t text lang "en" = .ok out →
       detect_and_translate d t text = out) ∧
    (∀ (backend : String → String → Except String String)
       (text dst out : String), text ≠ "" →
       backend dst text = .ok out →
       translate_text backend text dst = pyStrip out) := by
  constructor
  · intro d t text lang out htext hd hlang ht
    unfold detect_and_translate
    rw [if_neg htext, hd]
    simp only []
    rw [if_pos hlang, ht]
  · intro backend text dst out htext hb
    unfold translate_text
    rw [if_neg htext, hb]

/-- Witness for the amended C7 at concrete oracles. -/
theorem trimmed_result_amended_witness :
    detect_and_translate (fun _ => Except.ok "fr")
        (fun _ _ _ => Except.ok " hola ") "x" = " hola " ∧
    translate_text (fun _ _ => Except.ok " hola ") "x" "en" = pyStrip " hola " :=
  ⟨trimmed_result_amended.1 _ _ "x" "fr" " hola " (by decide) rfl (by decide) rfl,
   trimmed_result_amended.2 _ "x" "en" " hola " (by decide) rfl⟩

/-- Witness for C5 at a concrete detector reporting English. -/
theorem translation_noop_witness :
    detect_and_translate (fun _ => .ok "en") (fun _ _ _ => .ok "X") "hello" = "hello" ∧
    detect_and_translate (fun _ => .ok "en") (fun _ _ _ => .ok "X") "hello"
      = detect_and_translate (fun _ => .ok "en") (fun _ _ _ => .error "e") "hello" :=
  translation_noop.2 _ _ _ "hello" rfl

/-- Helper: the fetch loop is filter-then-map over the raw messages. -/
theorem fetch_loop_eq (channel_identifier : String) :
    ∀ (l : List RawMessage) (acc : List Record),
      l.foldl
        (fun messages message =>
          if msgTruthy message.message then
            messages ++ [recordOfRaw channel_identifier message]
          else messages) acc
        = acc ++ (l.filter (fun m => msgTruthy m.message)).map
            (recordOfRaw channel_identifier) := by
  intro l
  induction l with
  | nil => intro acc; simp
  | cons m l ih =>
    intro acc
    by_cases hm : msgTruthy m.message
    · simp [List.foldl_cons, List.filter_cons, hm, ih]
    · simp [List.foldl_cons, List.filter_cons, hm, ih]

/-- Helper: a fold that appends per element, started from an arbitrary
accumulator, is the accumulator followed by the fold started empty. -/
theorem foldl_append_init {α β : Type} (f : α → List β) :
    ∀ (l : List α) (acc : List β),
      l.foldl (fun a c => a ++ f c) acc
        = acc ++ l.foldl (fun a c => a ++ f c) [] := by
  intro l
  induction l with
  | nil => intro acc; simp
  | cons c l ih =>
    intro acc
    rw [List.foldl_cons, List.foldl_cons, ih (acc ++ f c), ih ([] ++ f c)]
    simp [List.append_assoc]

/-- Helper: fetch_all_messages on a cons of channels. -/
theorem fetch_all_messages_cons {Entity : Type} (client : Client Entity)
    (c : String) (cs : List String) :
    fetch_all_messages client (c :: cs)
      = fetch_messages_from_channel client c 100 ++ fetch_all_messages client cs := by
  unfold fetch_all_messages
  rw [List.foldl_cons]
  rw [foldl_append_init (fun ch => fetch_messages_from_channel client ch 100) cs]
  simp

/-- Helper: fetch_all_messages distributes over channel-list append. -/
theorem fetch_all_messages_append {Entity : Type} (client : Client Entity) :
    ∀ (l1 l2 : List String),
      fetch_all_messages client (l1 ++ l2)
        = fetch_all_messages client l1 ++ fetch_all_messages client l2 := by
  intro l1
  induction l1 with
  | nil => intro l2; simp [fetch_all_messages]
  | cons c l ih =>
    intro l2
    rw [List.cons_append, fetch_all_messages_cons, fetch_all_messages_cons, ih,
      List.append_assoc]

/-- Helper: every Record produced by a channel fetch has non-empty
original text. -/
theorem mem_fetch_ne_empty {Entity : Type} (client : Client Entity)
    (channel_identifier : String) (limit : Nat) :
    ∀ r ∈ fetch_messages_from_channel client channel_identifier limit,
      r.source_message_original ≠ "" := by
  intro r hr
  unfold fetch_messages_from_channel at hr
  cases hent : client.get_entity channel_identifier with
  | error e => rw [hent] at hr; simp at hr
  | ok entity =>
    rw [hent] at hr
    simp only [] at hr
    rw [fetch_loop_eq channel_identifier _ []] at hr
    rw [List.nil_append] at hr
    obtain ⟨m, hm, rfl⟩ := List.mem_map.mp hr
    have hmf := List.mem_filter.mp hm
    cases hmsg : m.message with
    | none => rw [hmsg] at hmf; simp [msgTruthy] at hmf
    | some s =>
      have : s ≠ "" := by
        have := hmf.2
        rw [hmsg] at this
        simpa [msgTruthy] using this
      simp [recordOfRaw, hmsg, Option.getD]
      exact this

/-- C6: empty-text exclusion.  When the channel resolves, the fetch is
exactly filter-by-truthy-text then map-to-Record over the raw messages
(so a raw message with absent or empty text yields no Record), and
every Record accumulated by a whole run has non-empty original text. -/
theorem empty_text_exclusion :
    (∀ (Entity : Type) (client : Client Entity) (channel_identifier : String)
       (limit : Nat) (entity : Entity),
       client.get_entity channel_identifier = .ok entity →
       fetch_messages_from_channel client channel_identifier limit
         = ((client.iter_messages entity limit).filter
             (fun m => msgTruthy m.message)).map (recordOfRaw channel_identifier)) ∧
    (∀ (Entity : Type) (client : Client Entity) (channels : List String),
       ∀ r ∈ fetch_all_messages client channels,
         r.source_message_original ≠ "") := by
  constructor
  · intro Entity client c limit entity hent
    unfold fetch_messages_from_channel
    rw [hent]
    simp only []
    rw [fetch_loop_eq c _ [], List.nil_append]
  · intro Entity client channels
    induction channels with
    | nil => intro r hr; simp [fetch_all_messages] at hr
    | cons c cs ih =>
      intro r hr
      rw [fetch_all_messages_cons] at hr
      rcases List.mem_append.mp hr with h | h
      · exact mem_fetch_ne_empty client c 100 r h
      · exact ih r h

/-- Witness for C6 on a concrete client yielding one good, one empty
and one absent message. -/
theorem empty_text_exclusion_witness :
    fetch_messages_from_channel clientW "ok" 100
      = ((clientW.iter_messages 0 100).filter (fun m => msgTruthy m.message)).map
          (recordOfRaw "ok") ∧
    (recordOfRaw "ok" rawHello).source_message_original ≠ "" :=
  ⟨empty_text_exclusion.1 Nat clientW "ok" 100 0 rfl,
   empty_text_exclusion.2 Nat clientW ["ok"] (recordOfRaw "ok" rawHello) (by decide)⟩

/-- C8: per-channel failure isolation.  A channel whose resolution
fails contributes the empty record list, and a whole run over channels
containing it equals the run over the remaining channels. -/
theorem per_channel_failure_isolation :
    ∀ (Entity : Type) (client : Client Entity) (c e : String) (limit : Nat)
      (pre post : List String),
      client.get_entity c = .error e →
      fetch_messages_from_channel client c limit = [] ∧
      fetch_all_messages client (pre ++ c :: post)
        = fetch_all_messages client pre ++ fetch_all_messages client post := by
  intro Entity client c e limit pre post hent
  have h1 : ∀ lim, fetch_messages_from_channel client c lim = [] := by
    intro lim
    unfold fetch_messages_from_channel
    rw [hent]
  refine ⟨h1 limit, ?_⟩
  rw [fetch_all_messages_append, fetch_all_messages_cons, h1 100, List.nil_append]

/-- Witness for C8: channel "bad" of the concrete client fails to
resolve and drops out of the run. -/
theorem per_channel_failure_isolation_witness :
    fetch_messages_from_channel clientW "bad" 100 = [] ∧
    fetch_all_messages clientW (["a"] ++ "bad" :: ["b"])
      = fetch_all_messages clientW ["a"] ++ fetch_all_messages clientW ["b"] :=
  per_channel_failure_isolation Nat clientW "bad" "no entity" 100 ["a"] ["b"] rfl

/-- C4 counterexample: devmode holding the integer 2 is truthy in
Python, yet the scrapper fetch does not use the reduced limit 1: on a
client whose message list depends on the requested limit it fetches
two records where a limit-1 fetch yields one. -/
theorem fetch_limit_truthy_counterexample :
    pyTruthy (PyVal.int 2) = true ∧
    (fetch_messages_from_channel_s (some (PyVal.int 2)) clientLim "c").length = 2 ∧
    (fetch_messages_from_channel clientLim "c" 1).length = 1 :=
  ⟨by decide, by decide, by decide⟩

/-- C4 amended: in scrapper.py the per-channel limit is 1 exactly when
config.get("devmode", 0) == 1 under Python equality (so for 1 and for
True, but not for other truthy values) and 100 otherwise, and each
variant applies its limit to every channel fetch of the run
(telegram_scrapper.py always fetches with limit 100). -/
theorem fetch_limit_config :
    ∀ (Entity : Type) (client : Client Entity) (devmode : Option PyVal)
      (channels : List String) (c : String),
      (pyEqOne (devmode.getD (PyVal.int 0)) = true →
        fetch_messages_from_channel_s devmode client c
          = fetch_messages_from_channel client c 1) ∧
      (pyEqOne (devmode.getD (PyVal.int 0)) = false →
        fetch_messages_from_channel_s devmode client c
          = fetch_messages_from_channel client c 100) ∧
      fetch_all_messages_s devmode client channels
        = channels.foldl
            (fun a ch => a ++ fetch_messages_from_channel_s devmode client ch) [] ∧
      fetch_all_messages client channels
        = channels.foldl
            (fun a ch => a ++ fetch_messages_from_channel client ch 100) [] := by
  intro Entity client devmode channels c
  refine ⟨?_, ?_, rfl, rfl⟩
  · intro h
    simp [fetch_messages_from_channel_s, fetch_messages_from_channel, h]
  · intro h
    simp [fetch_messages_from_channel_s, fetch_messages_from_channel, h]

/-- Witness for the amended C4 at devmode 1 and devmode 2. -/
theorem fetch_limit_config_witness :
    fetch_messages_from_channel_s (some (PyVal.int 1)) clientLim "c"
      = fetch_messages_from_channel clientLim "c" 1 ∧
    fetch_messages_from_channel_s (some (PyVal.int 2)) clientLim "c"
      = fetch_messages_from_channel clientLim "c" 100 :=
  ⟨(fetch_limit_config Nat clientLim (some (PyVal.int 1)) [] "c").1 (by decide),
   (fetch_limit_config Nat clientLim (some (PyVal.int 2)) [] "c").2.1 (by decide)⟩

/-- Helper: an existing dedup tuple survives a single insert. -/
theorem hasKey_insertOne_mono (store : List Row) (m : Record)
    (k : String × String × String × String) (h : hasKey store k) :
    hasKey (insertOne store m) k := by
  unfold insertOne
  by_cases hc : hasKey store m.dedupKey
  · rw [if_pos hc]; exact h
  · rw [if_neg hc]
    obtain ⟨r, hr, hk⟩ := h
    exact ⟨r, List.mem_append_left _ hr, hk⟩

/-- Helper: after a single insert of a record, its dedup tuple is
present in the store. -/
theorem hasKey_insertOne_self (store : List Row) (m : Record) :
    hasKey (insertOne store m) m.dedupKey := by
  unfold insertOne
  by_cases hc : hasKey store m.dedupKey
  · rw [if_pos hc]; exact hc
  · rw [if_neg hc]
    exact ⟨rowOfRecord store.length m,
      List.mem_append_right _ (List.mem_singleton.mpr rfl), rfl⟩

/-- Helper: an existing dedup tuple survives a batch insert. -/
theorem hasKey_insert_messages_mono (k : String × String × String × String) :
    ∀ (messages : List Record) (store : List Row),
      hasKey store k → hasKey (insert_messages store messages) k := by
  intro messages
  induction messages with
  | nil => intro store h; exact h
  | cons m l ih =>
    intro store h
    exact ih (insertOne store m) (hasKey_insertOne_mono store m k h)

/-- Helper: after a batch insert, the dedup tuple of every batch
element is present in the store. -/
theorem hasKey_insert_messages_self :
    ∀ (messages : List Record) (store : List Row),
      ∀ m ∈ messages, hasKey (insert_messages store messages) m.dedupKey := by
  intro messages
  induction messages with
  | nil => intro store m hm; simp at hm
  | cons m0 l ih =>
    intro store m hm
    rcases List.mem_cons.mp hm with rfl | hm
    · exact hasKey_insert_messages_mono m.dedupKey l (insertOne store m)
        (hasKey_insertOne_self store m)
    · exact ih (insertOne store m0) m hm

/-- Helper: inserting a record whose dedup tuple is present leaves the
store unchanged. -/
theorem insertOne_of_hasKey (store : List Row) (m : Record)
    (h : hasKey store m.dedupKey) : insertOne store m = store := by
  unfold insertOne
  rw [if_pos h]

/-- Helper: a batch insert all of whose dedup tuples are present is a
no-op. -/
theorem insert_messages_of_hasKey :
    ∀ (messages : List Record) (store : List Row),
      (∀ m ∈ messages, hasKey store m.dedupKey) →
      insert_messages store messages = store := by
  intro messages
  induction messages with
  | nil => intro store _; rfl
  | cons m0 l ih =>
    intro store h
    have h0 : insertOne store m0 = store :=
      insertOne_of_hasKey store m0 (h m0 (List.mem_cons_self m0 l))
    show insert_messages (insertOne store m0) l = store
    rw [h0]
    exact ih store (fun m hm => h m (List.mem_cons_of_mem m0 hm))

/-- C1: the batch upsert is idempotent.  Inserting the same batch twice
leaves exactly the rows of inserting it once, and a single insert of a
record whose dedup tuple is already present is a silent no-op on the
store (no error: insert_messages is a total function). -/
theorem insert_messages_idempotent :
    ∀ (store : List Row) (messages : List Record),
      insert_messages (insert_messages store messages) messages
        = insert_messages store messages ∧
      ∀ m : Record, hasKey store m.dedupKey → insert_messages store [m] = store := by
  intro store messages
  constructor
  · exact insert_messages_of_hasKey messages (insert_messages store messages)
      (hasKey_insert_messages_self messages store)
  · intro m h
    show insertOne store m = store
    exact insertOne_of_hasKey store m h

/-- Witness for C1 at a concrete batch and store. -/
theorem insert_messages_idempotent_witness :
    insert_messages (insert_messages [] [sampleRecord "hola" ""])
        [sampleRecord "hola" ""]
      = insert_messages [] [sampleRecord "hola" ""] ∧
    insert_messages [sampleRow 0 "hola" (some "")] [sampleRecord "hola" ""]
      = [sampleRow 0 "hola" (some "")] :=
  ⟨(insert_messages_idempotent [] [sampleRecord "hola" ""]).1,
   (insert_messages_idempotent [sampleRow 0 "hola" (some "")]
       [sampleRecord "hola" ""]).2 (sampleRecord "hola" "") (by decide)⟩

/-- Helper: a fold of per-element maps over the store is one map of the
per-row fold. -/
theorem foldl_map_eq {α : Type} (g : α → Row → Row) :
    ∀ (u : List α) (s : List Row),
      u.foldl (fun s x => s.map (g x)) s
        = s.map (fun r => u.foldl (fun r x => g x r) r) := by
  intro u
  induction u with
  | nil => intro s; simp
  | cons x u ih =>
    intro s
    rw [List.foldl_cons, ih (s.map (g x)), List.map_map]
    rfl

/-- Helper: the per-row backfill fold leaves a row alone when no
selected row shares its id. -/
theorem backfill_row_skip (v : Row → String) :
    ∀ (u : List Row) (r : Row), (∀ x ∈ u, r.id ≠ x.id) →
      u.foldl
        (fun r x =>
          if r.id = x.id then
            { r with source_message_translated := some (v x) }
          else r) r = r := by
  intro u
  induction u with
  | nil => intro r _; rfl
  | cons x u ih =>
    intro r h
    rw [List.foldl_cons, if_neg (h x (List.mem_cons_self x u))]
    exact ih r (fun y hy => h y (List.mem_cons_of_mem x hy))

/-- Helper: once a row has received its backfill value, further steps
of the fold leave it unchanged (every selected row sharing its id is
the row itself, and rewriting the same value is idempotent). -/
theorem backfill_row_stay (v : Row → String) (r : Row) :
    ∀ (u : List Row), (∀ x ∈ u, x.id = r.id → x = r) →
      u.foldl
        (fun r x =>
          if r.id = x.id then
            { r with source_message_translated := some (v x) }
          else r)
        { r with source_message_translated := some (v r) }
        = { r with source_message_translated := some (v r) } := by
  intro u
  induction u with
  | nil => intro _; rfl
  | cons x u ih =>
    intro h
    rw [List.foldl_cons]
    by_cases hid : r.id = x.id
    · have hx : x = r := h x (List.mem_cons_self x u) hid.symm
      subst hx
      rw [if_pos rfl]
      exact ih (fun y hy => h y (List.mem_cons_of_mem x hy))
    · rw [if_neg hid]
      exact ih (fun y hy => h y (List.mem_cons_of_mem x hy))

/-- Helper: a row that is among the selected rows, and whose id is
shared by no other selected row, ends the backfill fold holding its
backfill value. -/
theorem backfill_row_hit (v : Row → String) (r : Row) :
    ∀ (u : List Row), (∀ x ∈ u, x.id = r.id → x = r) → r ∈ u →
      u.foldl
        (fun r x =>
          if r.id = x.id then
            { r with source_message_translated := some (v x) }
          else r) r
        = { r with source_message_translated := some (v r) } := by
  intro u
  induction u with
  | nil => intro _ hmem; simp at hmem
  | cons x u ih =>
    intro h hmem
    by_cases hid : r.id = x.id
    · have hx : x = r := h x (List.mem_cons_self x u) hid.symm
      subst hx
      rw [List.foldl_cons, if_pos rfl]
      exact backfill_row_stay v x u (fun y hy => h y (List.mem_cons_of_mem x hy))
    · rw [List.foldl_cons, if_neg hid]
      have hru : r ∈ u := by
        rcases List.mem_cons.mp hmem with rfl | hru
        · exact absurd rfl hid
        · exact hru
      exact ih (fun y hy => h y (List.mem_cons_of_mem x hy)) hru

/-- Helper: when id is a surrogate key (injective on the store), the
backfill pass acts row-wise: every selected row receives the
detect-and-translate of its original text, every other row is
untouched. -/
theorem backfill_pass_eq (d : String → Except String String)
    (t : String → String → String → Except String String) (store : List Row)
    (hid : ∀ r ∈ store, ∀ x ∈ store, r.id = x.id → r = x) :
    backfill_pass d t store
      = store.map (fun r =>
          if rowUntranslated r then
            { r with
                source_message_translated := some (detect_and_translate d t r.source_message_original) }
          else r) := by
  rw [show backfill_pass d t store
      = (store.filter (fun r => decide (rowUntranslated r))).foldl
          (fun s x => s.map (fun r =>
            if r.id = x.id then
              { r with
                  source_message_translated := some (detect_and_translate d t x.source_message_original) }
            else r)) store from rfl]
  rw [foldl_map_eq
    (fun x r =>
      if r.id = x.id then
        { r with
            source_message_translated := some (detect_and_translate d t x.source_message_original) }
      else r)
    (store.filter (fun r => decide (rowUntranslated r))) store]
  apply List.map_congr_left
  intro r hr
  by_cases hp : rowUntranslated r
  · rw [if_pos hp]
    exact backfill_row_hit
      (fun x => detect_and_translate d t x.source_message_original) r
      (store.filter (fun r => decide (rowUntranslated r)))
      (fun x hx hxid =>
        hid x (List.mem_filter.mp hx).1 r hr hxid)
      (List.mem_filter.mpr ⟨hr, decide_eq_true hp⟩)
  · rw [if_neg hp]
    apply backfill_row_skip
      (fun x => detect_and_translate d t x.source_message_original)
    intro x hx
    intro hxid
    have hmem := List.mem_filter.mp hx
    have hxr : x = r := hid x hmem.1 r hr hxid.symm
    subst hxr
    exact hp (of_decide_eq_true hmem.2)

/-- C3: backfill convergence.  With id a surrogate key (injective on
the store), every stored original non-empty, and the translation
backend deterministic and never returning an empty string on success,
one backfill pass gives every row that satisfied the selection
criterion (translated null or empty) the detect-and-translate of its
own original text, leaves every other row untouched (the pass is the
row-wise map), and afterwards no row of the store satisfies the
criterion. -/
theorem backfill_convergence (d : String → Except String String)
    (t : String → String → String → Except String String) (store : List Row)
    (hid : ∀ r ∈ store, ∀ x ∈ store, r.id = x.id → r = x)
    (horig : ∀ r ∈ store, r.source_message_original ≠ "")
    (htr : ∀ s lang dst out, t s lang dst = .ok out → out ≠ "") :
    backfill_pass d t store
      = store.map (fun r =>
          if rowUntranslated r then
            { r with
                source_message_translated := some (detect_and_translate d t r.source_message_original) }
          else r) ∧
    ∀ r ∈ backfill_pass d t store, ¬ rowUntranslated r := by
  have heq := backfill_pass_eq d t store hid
  refine ⟨heq, ?_⟩
  intro r hr
  rw [heq] at hr
  obtain ⟨r0, hr0, rfl⟩ := List.mem_map.mp hr
  by_cases hp : rowUntranslated r0
  · rw [if_pos hp]
    intro hcon
    have hne := detect_and_translate_ne_empty d t r0.source_message_original
      (horig r0 hr0) htr
    rcases hcon with h | h
    · simp at h
    · simp at h
      exact hne h
  · rw [if_neg hp]
    exact hp

/-- Witness for C3 on a three-row store (one empty translation, one
filled, one null) with a concrete successful backend. -/
theorem backfill_convergence_witness :
    backfill_pass (fun _ => Except.ok "es") (fun _ _ _ => Except.ok "hello")
        [sampleRow 0 "hola" (some ""), sampleRow 1 "done" (some "ok"),
          sampleRow 2 "mundo" none]
      = [sampleRow 0 "hola" (some ""), sampleRow 1 "done" (some "ok"),
          sampleRow 2 "mundo" none].map (fun r =>
          if rowUntranslated r then
            { r with
                source_message_translated := some (detect_and_translate (fun _ => Except.ok "es") (fun _ _ _ => Except.ok "hello") r.source_message_original) }
          else r) :=
  (backfill_convergence (fun _ => Except.ok "es") (fun _ _ _ => Except.ok "hello")
    [sampleRow 0 "hola" (some ""), sampleRow 1 "done" (some "ok"),
      sampleRow 2 "mundo" none]
    (by decide) (by decide)
    (fun s lang dst out h => by
      injection h with h2
      rw [← h2]
      decide)).1

/-- Helper: every row of the store after a batch insert either was
there before or is the stored form of a batch record. -/
theorem mem_insert_messages :
    ∀ (messages : List Record) (store : List Row),
      ∀ r ∈ insert_messages store messages,
        r ∈ store ∨ ∃ i m, m ∈ messages ∧ r = rowOfRecord i m := by
  intro messages
  induction messages with
  | nil => intro store r hr; exact Or.inl hr
  | cons m0 l ih =>
    intro store r hr
    rcases ih (insertOne store m0) r hr with h | ⟨i, m, hm, rfl⟩
    · unfold insertOne at h
      by_cases hc : hasKey store m0.dedupKey
      · rw [if_pos hc] at h
        exact Or.inl h
      · rw [if_neg hc] at h
        rcases List.mem_append.mp h with h | h
        · exact Or.inl h
        · exact Or.inr ⟨store.length, m0, List.mem_cons_self m0 l,
            List.mem_singleton.mp h⟩
    · exact Or.inr ⟨i, m, List.mem_cons_of_mem m0 hm, rfl⟩

/-- C9 counterexample: the claim rests on detect_and_translate
returning a non-empty string for every non-empty input, but a backend
that succeeds with the empty string refutes it: after the translate
step the batch holds a record with non-empty original text and empty
translated text, which would satisfy the backfill criterion once
inserted. -/
theorem batch_translated_counterexample :
    (translate_step (fun _ => Except.ok "fr") (fun _ _ _ => Except.ok "")
        [sampleRecord "hola" ""]).map (fun m => m.source_message_translated)
      = [""] ∧
    (sampleRecord "hola" "").source_message_original ≠ "" ∧
    detect_and_translate (fun _ => Except.ok "fr") (fun _ _ _ => Except.ok "")
        "hola" = "" :=
  ⟨by decide, by decide, by decide⟩

/-- C9 amended: provided the translation backend never returns an
empty string on success, every record of the batch handed to the
upsert after the translate step of main has non-empty translated text,
and consequently every row the upsert adds for such a batch fails the
backfill selection criterion at the moment it is inserted. -/
theorem batch_translated_nonempty (d : String → Except String String)
    (t : String → String → String → Except String String)
    (messages : List Record) (store : List Row)
    (htr : ∀ s lang dst out, t s lang dst = .ok out → out ≠ "")
    (horig : ∀ m ∈ messages, m.source_message_original ≠ "") :
    (∀ m ∈ translate_step d t messages, m.source_message_translated ≠ "") ∧
    (∀ r ∈ insert_messages store (translate_step d t messages),
      r ∈ store ∨ ¬ rowUntranslated r) := by
  have hstep : ∀ m ∈ translate_step d t messages,
      m.source_message_translated ≠ "" := by
    intro m hm
    obtain ⟨m0, hm0, rfl⟩ := List.mem_map.mp hm
    by_cases h0 : m0.source_message_translated = ""
    · rw [if_pos h0]
      exact detect_and_translate_ne_empty d t m0.source_message_original
        (horig m0 hm0) htr
    · rw [if_neg h0]
      exact h0
  refine ⟨hstep, ?_⟩
  intro r hr
  rcases mem_insert_messages (translate_step d t messages) store r hr
    with h | ⟨i, m, hm, rfl⟩
  · exact Or.inl h
  · refine Or.inr ?_
    intro hcon
    rcases hcon with h | h
    · simp [rowOfRecord] at h
    · simp [rowOfRecord] at h
      exact hstep m hm h

/-- Witness for the amended C9 on a concrete batch and empty store. -/
theorem batch_translated_nonempty_witness :
    (∀ m ∈ translate_step (fun _ => Except.ok "es")
        (fun _ _ _ => Except.ok "hello") [sampleRecord "hola" ""],
      m.source_message_translated ≠ "") ∧
    (∀ r ∈ insert_messages [] (translate_step (fun _ => Except.ok "es")
        (fun _ _ _ => Except.ok "hello") [sampleRecord "hola" ""]),
      r ∈ ([] : List Row) ∨ ¬ rowUntranslated r) :=
  batch_translated_nonempty (fun _ => Except.ok "es")
    (fun _ _ _ => Except.ok "hello") [sampleRecord "hola" ""] []
    (fun s lang dst out h => by
      injection h with h2
      rw [← h2]
      decide)
    (by decide)
